import Mathlib

/-!
Verification of the raw-PCM audio decode-and-playback controller
(`decode`, `decodeAudioData`, `class AudioPlayer` in the audio module).

The embedding translates the JavaScript source line by line:

* `decode` wraps the platform `atob`, which implements the WHATWG
  "forgiving-base64 decode" algorithm: strip ASCII whitespace; when the
  remaining length is a multiple of 4, strip one or two trailing `=`
  characters; fail (`InvalidCharacterError`) when the remaining length is
  ≡ 1 mod 4 or when a character outside the base64 alphabet remains.
  The subsequent `Uint8Array` copy (`bytes[i] = binaryString.charCodeAt(i)`)
  is the identity on the byte values `atob` produces, so `decode` is
  modelled as the byte-level decoder directly.

* `decodeAudioData` executes `new Int16Array(data.buffer)` — which throws a
  `RangeError` when the buffer's byte length is not a multiple of 2 (the
  `Uint8Array` produced by `decode` owns its whole buffer, so the byte
  length is exactly `data.length`) — then
  `ctx.createBuffer(numChannels, frameCount, sampleRate)`.  The Web IDL
  `unsigned long` conversion truncates the possibly fractional JS number
  `frameCount = dataInt16.length / numChannels` toward zero, which for the
  non-negative values arising here coincides with `Nat` division; for
  small integer operands the Float64 rounding of the division never moves
  it across an integer, so the truncation of the float equals the `Nat`
  quotient.  `createBuffer` throws `NotSupportedError` when the channel
  count is 0 or above 32, the (truncated) length is 0, or the sample rate
  is outside the guaranteed nominal range 8000–96000 Hz.  The copy loop
  runs `i` up to the fractional `frameCount`, but a write into a
  `Float32Array` at an out-of-bounds index is silently discarded, and
  every in-bounds write `channelData[i] = dataInt16[i*numChannels+channel]`
  with `i < ⌊frameCount⌋` reads in bounds, so the effective buffer content
  is exactly `⌊frameCount⌋` frames per channel.

* Each stored sample is `dataInt16[idx] / 32768.0`.  All such quotients
  `k / 2^15` with `|k| ≤ 2^15` are exactly representable in Float32 and
  Float64, so modelling the samples in `ℚ` is exact.
-/

/-- Error raised by `atob` (DOMException `InvalidCharacterError`). -/
inductive DecodeError where
  | invalidCharacter
deriving DecidableEq, Repr

/-- Errors raised inside `decodeAudioData`: the `Int16Array` view
constructor's alignment `RangeError`, and `createBuffer`'s
`NotSupportedError`. -/
inductive AudioError where
  | rangeError
  | notSupportedError
deriving DecidableEq, Repr

deriving instance DecidableEq for Except

/-- ASCII whitespace, the characters removed by forgiving-base64 decode. -/
def isAsciiWS (c : Char) : Bool :=
  decide (c.toNat = 9 ∨ c.toNat = 10 ∨ c.toNat = 12 ∨ c.toNat = 13 ∨ c.toNat = 32)

/-- Membership in the base64 alphabet (`A`–`Z`, `a`–`z`, `0`–`9`, `+`, `/`). -/
def isB64Char (c : Char) : Bool :=
  decide ((65 ≤ c.toNat ∧ c.toNat ≤ 90) ∨ (97 ≤ c.toNat ∧ c.toNat ≤ 122) ∨
    (48 ≤ c.toNat ∧ c.toNat ≤ 57) ∨ c.toNat = 43 ∨ c.toNat = 47)

/-- The 6-bit value of a base64 alphabet character. -/
def b64Val (c : Char) : Nat :=
  if 65 ≤ c.toNat ∧ c.toNat ≤ 90 then c.toNat - 65
  else if 97 ≤ c.toNat ∧ c.toNat ≤ 122 then c.toNat - 71
  else if 48 ≤ c.toNat ∧ c.toNat ≤ 57 then c.toNat + 4
  else if c.toNat = 43 then 62
  else 63

/-- Remove one or two trailing `=` characters (forgiving-base64 step 2;
only invoked when the length is a multiple of 4). -/
def stripPad (d : List Char) : List Char :=
  match d.reverse with
  | c1 :: c2 :: rest =>
    if c1 = '=' then (if c2 = '=' then rest.reverse else (c2 :: rest).reverse) else d
  | [c1] => if c1 = '=' then [] else d
  | [] => d

/-- The input after whitespace removal and conditional padding removal
(forgiving-base64 steps 1–2). -/
def cleaned (s : List Char) : List Char :=
  let d := s.filter (fun c => !(isAsciiWS c))
  if d.length % 4 = 0 then stripPad d else d

/-- Bit-level base64 decoding of the 6-bit values: groups of four values
give three bytes; a trailing group of two values gives one byte (the top
8 of 12 bits) and a trailing group of three gives two bytes (the top 16
of 18 bits).  A trailing group of one value is rejected before this
function is reached. -/
def b64Decode : List Nat → List Nat
  | a :: b :: c :: d :: rest =>
    let n := 262144 * a + 4096 * b + 64 * c + d
    n / 65536 :: n / 256 % 256 :: n % 256 :: b64Decode rest
  | [a, b] => [(64 * a + b) / 16]
  | [a, b, c] => [(4096 * a + 64 * b + c) / 1024, (4096 * a + 64 * b + c) / 4 % 256]
  | _ => []

/-- The platform `atob`: WHATWG forgiving-base64 decode. -/
def atob (s : List Char) : Except DecodeError (List Nat) :=
  let d := cleaned s
  if d.length % 4 = 1 then .error .invalidCharacter
  else if d.any (fun c => !(isB64Char c)) then .error .invalidCharacter
  else .ok (b64Decode (d.map b64Val))

/-- Source `decode` (lines 2–10): `atob` followed by a byte-for-byte copy
of the binary string into a `Uint8Array`, which is the identity on the
byte values. -/
def decode (base64 : List Char) : Except DecodeError (List Nat) :=
  atob base64

/-- Reinterpretation of two bytes as one signed little-endian 16-bit
integer, as performed by an `Int16Array` view over the byte buffer.
`Uint8Array` stores each element modulo 256, hence the reductions. -/
def toInt16 (lo hi : Nat) : ℤ :=
  if lo % 256 + 256 * (hi % 256) < 32768 then ((lo % 256 + 256 * (hi % 256) : Nat) : ℤ)
  else ((lo % 256 + 256 * (hi % 256) : Nat) : ℤ) - 65536

/-- The sample sequence of `new Int16Array(data.buffer)`: consecutive byte
pairs, little-endian.  (The constructor itself rejects odd byte lengths;
the guard lives in `decodeAudioData`.) -/
def bytesToInt16LE : List Nat → List ℤ
  | lo :: hi :: rest => toInt16 lo hi :: bytesToInt16LE rest
  | _ => []

/-- Source line 26: `channelData[i] = dataInt16[i * numChannels + channel] / 32768.0`.
All values `k / 2^15`, `|k| ≤ 2^15`, are exact in Float32/Float64, so `ℚ`
models the float arithmetic exactly. -/
def normSample (k : ℤ) : ℚ :=
  (k : ℚ) / 32768

/-- The `AudioBuffer` produced by `ctx.createBuffer` and filled by the
copy loop: channel-planar normalized samples. -/
structure AudioBuffer where
  numChannels : Nat
  frameCount : Nat
  sampleRate : Nat
  channels : List (List ℚ)
deriving DecidableEq, Repr

/-- Source `decodeAudioData` (lines 13–30).  The guards reproduce, in
execution order, the `Int16Array` constructor's alignment requirement
(line 19) and `createBuffer`'s nominal-range requirements (line 21); the
buffer content is the effective result of the copy loop (lines 23–28),
i.e. `⌊samples / numChannels⌋` frames per channel — see the module
comment for why out-of-bounds iterations contribute nothing. -/
def decodeAudioData (data : List Nat) (sampleRate numChannels : Nat) :
    Except AudioError AudioBuffer :=
  if data.length % 2 ≠ 0 then .error .rangeError
  else
    let dataInt16 := bytesToInt16LE data
    let frameCount := dataInt16.length / numChannels
    if numChannels = 0 ∨ 32 < numChannels ∨ frameCount = 0 ∨
        sampleRate < 8000 ∨ 96000 < sampleRate then .error .notSupportedError
    else .ok
      { numChannels := numChannels
        frameCount := frameCount
        sampleRate := sampleRate
        channels := (List.range numChannels).map (fun channel =>
          (List.range frameCount).map (fun i =>
            normSample (dataInt16.getD (i * numChannels + channel) 0))) }

/-- The spec's abstract controller states.  The source class has no state
field; the abstraction is read off its nullable fields (`audioBuffer`,
`sourceNode`). -/
inductive PState where
  | unloaded
  | loaded
  | playing
deriving DecidableEq, Repr

/-- Errors reported by the controller: `play()`'s
`console.error("Audio not loaded yet.")` (line 53), and the exceptions
propagated out of `load()` (lines 46–48). -/
inductive PlayerErr where
  | notLoaded
  | decodeErr (e : DecodeError)
  | bufferErr (e : AudioError)
deriving DecidableEq, Repr

/-- Record of one invocation of an `onended` handler: which source node's
event fired, which registered callback ran, and the controller state the
callback observed at the moment it was invoked. -/
structure FiredEntry where
  node : Nat
  cb : Nat
  stateAtInvoke : PState
deriving DecidableEq, Repr

/-- The `AudioPlayer` instance together with the observable history of its
interaction with the audio subsystem.  `sourceNode` holds the identifier
of the current `AudioBufferSourceNode`; `attached` lists the node ids
whose `onended` slot currently holds the completion closure installed by
`play()` (lines 63–68) — `null`ing the slot removes the id;
`nextId` generates fresh node ids for `createBufferSource()`;
`started` records each `sourceNode.start()` call with its start offset in
frames (`start()` with no argument starts at offset 0); `fired` records
every executed `onended` handler invocation; `errs` records reported
errors.  Callbacks are identified by numbers so that the registration
history is observable. -/
structure Sim where
  base64Audio : List Char
  audioBuffer : Option AudioBuffer
  sourceNode : Option Nat
  onEndedCallback : Option Nat
  attached : List Nat
  nextId : Nat
  started : List (Nat × Nat)
  fired : List FiredEntry
  errs : List PlayerErr
deriving DecidableEq, Repr

/-- A freshly constructed `AudioPlayer` (constructor, lines 39–42): all
nullable fields are `null`; no nodes exist yet. -/
def Sim.init (b64 : List Char) : Sim :=
  { base64Audio := b64
    audioBuffer := none
    sourceNode := none
    onEndedCallback := none
    attached := []
    nextId := 0
    started := []
    fired := []
    errs := [] }

/-- Abstraction from source fields to the spec's state machine:
no buffer — `Unloaded`; buffer but no active source node — `Loaded`;
active source node — `Playing`. -/
def stateOf (s : Sim) : PState :=
  match s.audioBuffer, s.sourceNode with
  | none, _ => .unloaded
  | some _, none => .loaded
  | some _, some _ => .playing

/-- Source `load()` (lines 44–49), instrumented with a flag telling
whether the decode pipeline ran (`false` on the early return of line 45).
The arguments of `decodeAudioData` are the hard-coded constants of
line 48: 24000 Hz, 1 channel.  A thrown `DecodeError`/`AudioError`
propagates to the awaiting caller, recorded in `errs`; `audioBuffer`
is only assigned on success. -/
def loadStepI (s : Sim) : Sim × Bool :=
  if s.audioBuffer.isSome then (s, false)
  else
    match decode s.base64Audio with
    | .error e => ({ s with errs := s.errs ++ [.decodeErr e] }, true)
    | .ok bytes =>
      match decodeAudioData bytes 24000 1 with
      | .error e => ({ s with errs := s.errs ++ [.bufferErr e] }, true)
      | .ok buf => ({ s with audioBuffer := some buf }, true)

/-- The state transformation of `load()`. -/
def loadStep (s : Sim) : Sim :=
  (loadStepI s).1

/-- Source `stop()` (lines 73–79): when a source node is active, first
`sourceNode.onended = null` (detach the completion closure, line 75),
then `sourceNode.stop()` and `sourceNode = null` (line 76–77); otherwise
nothing happens. -/
def stopStep (s : Sim) : Sim :=
  match s.sourceNode with
  | none => s
  | some nid =>
    { s with attached := s.attached.filter (fun x => x != nid)
             sourceNode := none }

/-- Source `play()` (lines 51–71): without a buffer, report
"Audio not loaded yet." and return (lines 52–55); with an active source
node, first call `this.stop()` (lines 56–58); then create a fresh source
node, install the completion closure in its `onended` slot (lines 63–68)
and `start()` it from offset 0 (line 70). -/
def playStep (s : Sim) : Sim :=
  match s.audioBuffer with
  | none => { s with errs := s.errs ++ [.notLoaded] }
  | some _ =>
    let s1 := match s.sourceNode with
      | some _ => stopStep s
      | none => s
    { s1 with sourceNode := some s1.nextId
              attached := s1.nextId :: s1.attached
              started := s1.started ++ [(s1.nextId, 0)]
              nextId := s1.nextId + 1 }

/-- Source `onEnded()` (lines 81–83): replace the single callback slot. -/
def onEndedStep (s : Sim) (cb : Nat) : Sim :=
  { s with onEndedCallback := some cb }

/-- Delivery of the `ended` event for node `nid` by the audio subsystem.
The DOM reads the node's `onended` slot at dispatch time: if the closure
of lines 63–68 is still attached, it runs — `this.sourceNode = null`
first, then the currently registered callback, which therefore observes
the already-cleared state; a detached slot means nothing runs.  (A real
browser fires `ended` at most once per node and only after the node has
stopped; the theorems below do not depend on that restriction.) -/
def endedStep (s : Sim) (nid : Nat) : Sim :=
  if nid ∈ s.attached then
    let s1 : Sim := { s with sourceNode := none }
    match s1.onEndedCallback with
    | some cb => { s1 with fired := s1.fired ++ [⟨nid, cb, stateOf s1⟩] }
    | none => s1
  else s

/-- The commands a caller (or the audio subsystem, for `ended`) can issue
to one `AudioPlayer` instance. -/
inductive Cmd where
  | load
  | play
  | stop
  | onEnded (cb : Nat)
  | ended (node : Nat)
deriving DecidableEq, Repr

/-- One command against the controller. -/
def step (s : Sim) : Cmd → Sim
  | .load => loadStep s
  | .play => playStep s
  | .stop => stopStep s
  | .onEnded cb => onEndedStep s cb
  | .ended nid => endedStep s nid

/-- A serialized sequence of commands, as §5 of the spec requires. -/
def run (s : Sim) (cs : List Cmd) : Sim :=
  cs.foldl step s

/-- The handler invocations recorded for the session of node `a`. -/
def firedFor (s : Sim) (a : Nat) : List FiredEntry :=
  s.fired.filter (fun e => e.node == a)


/-- The base64 text of the spec's §8 scenario payload
`[0x00, 0x80, 0xFF, 0x7F]`. -/
def b64c : List Char :=
  ['A', 'I', 'D', '/', 'f', 'w', '=', '=']

/-- The buffer `load()` builds from `b64c`: two mono frames holding the
extreme samples. -/
def sampleBuf : AudioBuffer :=
  { numChannels := 1
    frameCount := 2
    sampleRate := 24000
    channels := [[normSample (-32768), normSample 32767]] }

/-- The player after a successful `load()`. -/
def simLoaded : Sim :=
  run (Sim.init b64c) [.load]

/-- The player after `load()` then `play()`: node 0 is the active session. -/
def simPlaying : Sim :=
  run (Sim.init b64c) [.load, .play]


lemma toInt16_range (lo hi : Nat) : -32768 ≤ toInt16 lo hi ∧ toInt16 lo hi ≤ 32767 := by
  have h1 : lo % 256 < 256 := Nat.mod_lt _ (by norm_num)
  have h2 : hi % 256 < 256 := Nat.mod_lt _ (by norm_num)
  unfold toInt16
  split <;> omega

lemma bytesToInt16LE_mem : ∀ l : List Nat, ∀ z ∈ bytesToInt16LE l,
    -32768 ≤ z ∧ z ≤ 32767
  | [] => by intro z hz; simp [bytesToInt16LE] at hz
  | [a] => by intro z hz; simp [bytesToInt16LE] at hz
  | lo :: hi :: rest => by
    intro z hz
    simp only [bytesToInt16LE, List.mem_cons] at hz
    rcases hz with h | h
    · exact h ▸ toInt16_range lo hi
    · exact bytesToInt16LE_mem rest z h

lemma bytesToInt16LE_getD_range (l : List Nat) (n : Nat) :
    -32768 ≤ (bytesToInt16LE l).getD n 0 ∧ (bytesToInt16LE l).getD n 0 ≤ 32767 := by
  rcases h : (bytesToInt16LE l)[n]? with _ | z
  · simp [List.getD, h]
  · have hz := bytesToInt16LE_mem l z (List.getElem?_mem h)
    simpa [List.getD, h] using hz

lemma bytesToInt16LE_length : ∀ l : List Nat,
    (bytesToInt16LE l).length = l.length / 2
  | [] => rfl
  | [a] => by simp [bytesToInt16LE]
  | lo :: hi :: rest => by
    simp only [bytesToInt16LE, List.length_cons, bytesToInt16LE_length rest]
    omega

lemma normSample_bounds (k : ℤ) (h1 : -32768 ≤ k) (h2 : k ≤ 32767) :
    -1 ≤ normSample k ∧ normSample k < 1 := by
  unfold normSample
  constructor
  · rw [le_div_iff₀ (by norm_num : (0:ℚ) < 32768)]
    have h : (-32768 : ℚ) ≤ (k : ℚ) := by exact_mod_cast h1
    linarith
  · rw [div_lt_one (by norm_num : (0:ℚ) < 32768)]
    have h : (k : ℚ) ≤ 32767 := by exact_mod_cast h2
    linarith

/-- Shape of every successful `decodeAudioData` result, read off the
success branch of the definition. -/
lemma decodeAudioData_ok (data : List Nat) (sr nc : Nat) (buf : AudioBuffer)
    (h : decodeAudioData data sr nc = Except.ok buf) :
    buf = { numChannels := nc
            frameCount := (bytesToInt16LE data).length / nc
            sampleRate := sr
            channels := (List.range nc).map (fun channel =>
              (List.range ((bytesToInt16LE data).length / nc)).map (fun i =>
                normSample ((bytesToInt16LE data).getD (i * nc + channel) 0))) } := by
  simp only [decodeAudioData] at h
  split at h
  · exact absurd h (by simp)
  · split at h
    · exact absurd h (by simp)
    · simpa using h.symm

/-- C1: the claim that every byte sequence whose length is not a multiple
of `2 × channels` fails is refuted by a 6-byte payload with 2 channels:
6 is not a multiple of 4, yet conversion succeeds with one frame, the
partial trailing frame silently dropped. -/
theorem c1_counterexample :
    ([0, 0, 0, 0, 0, 0] : List Nat).length % (2 * 2) ≠ 0
    ∧ decodeAudioData [0, 0, 0, 0, 0, 0] 24000 2 =
        Except.ok { numChannels := 2
                    frameCount := 1
                    sampleRate := 24000
                    channels := [[normSample 0], [normSample 0]] } :=
  ⟨by decide, rfl⟩

/-- C1 (amended): the conversion fails whenever the byte length is not a
multiple of 2 — the 16-bit element size, which for the mono configuration
this player uses coincides with the frame size — but an even byte length
that is not a multiple of `2 × channels` does not in general fail: any
successful conversion keeps `⌊bytes/2/channels⌋` frames, silently
dropping a partial trailing frame. -/
theorem c1_amended (data : List Nat) (sr nc : Nat) :
    (data.length % 2 ≠ 0 →
      decodeAudioData data sr nc = Except.error AudioError.rangeError)
    ∧ (∀ buf, decodeAudioData data sr nc = Except.ok buf →
        buf.frameCount = data.length / 2 / nc) := by
  constructor
  · intro h
    unfold decodeAudioData
    rw [if_pos h]
  · intro buf h
    rw [decodeAudioData_ok data sr nc buf h, bytesToInt16LE_length]

/-- Witness for C1 (amended): a 1-byte payload fails the alignment check,
and the 6-byte 2-channel payload of the counterexample keeps
`6 / 2 / 2 = 1` frame. -/
theorem c1_amended_witness :
    decodeAudioData [0] 24000 1 = Except.error AudioError.rangeError
    ∧ (1 : Nat) = ([0, 0, 0, 0, 0, 0] : List Nat).length / 2 / 2 :=
  ⟨(c1_amended [0] 24000 1).1 (by decide),
   (c1_amended [0, 0, 0, 0, 0, 0] 24000 2).2
     { numChannels := 2
       frameCount := 1
       sampleRate := 24000
       channels := [[normSample 0], [normSample 0]] } rfl⟩

/-- C2: every sample stored by the converter is some 16-bit value divided
by 32768, hence lies in `[-1, 1]`; `-32768` maps to exactly `-1` and
`32767` to a value strictly below `1`; no clipping or dithering is
applied (each stored value is exactly the quotient). -/
theorem c2_normalization (data : List Nat) (sr nc : Nat) (buf : AudioBuffer)
    (h : decodeAudioData data sr nc = Except.ok buf) :
    (∀ ch ∈ buf.channels, ∀ x ∈ ch,
      (-1 ≤ x ∧ x ≤ 1) ∧ ∃ k : ℤ, -32768 ≤ k ∧ k ≤ 32767 ∧ x = normSample k)
    ∧ normSample (-32768) = -1 ∧ normSample 32767 < 1 := by
  refine ⟨?_, by norm_num [normSample], by norm_num [normSample]⟩
  rw [decodeAudioData_ok data sr nc buf h]
  intro ch hch x hx
  simp only [List.mem_map] at hch
  obtain ⟨channel, -, rfl⟩ := hch
  simp only [List.mem_map] at hx
  obtain ⟨i, -, rfl⟩ := hx
  obtain ⟨hk1, hk2⟩ := bytesToInt16LE_getD_range data (i * nc + channel)
  obtain ⟨hb1, hb2⟩ := normSample_bounds _ hk1 hk2
  exact ⟨⟨hb1, le_of_lt hb2⟩, _, hk1, hk2, rfl⟩

/-- Witness for C2 at the §8 scenario payload. -/
theorem c2_normalization_witness :
    (∀ ch ∈ sampleBuf.channels, ∀ x ∈ ch,
      (-1 ≤ x ∧ x ≤ 1) ∧ ∃ k : ℤ, -32768 ≤ k ∧ k ≤ 32767 ∧ x = normSample k)
    ∧ normSample (-32768) = -1 ∧ normSample 32767 < 1 :=
  c2_normalization [0, 128, 255, 127] 24000 1 sampleBuf rfl

/-- C6: the claim that empty input fails is refuted: `decode` on the
empty string succeeds with the empty byte sequence (`atob("")` is `""`). -/
theorem c6_counterexample : decode [] = Except.ok [] := by decide

/-- C6 (amended): `decode` fails with `DecodeError` exactly on invalid
characters or invalid padding — i.e. when, after whitespace stripping and
padding removal, the length is ≡ 1 mod 4 or a non-alphabet character
remains — and on empty input it succeeds with the empty byte sequence.
It is a pure function of its input. -/
theorem c6_amended :
    decode [] = Except.ok []
    ∧ ∀ s : List Char,
        (decode s = Except.error DecodeError.invalidCharacter ↔
          ((cleaned s).length % 4 = 1 ∨
            (cleaned s).any (fun c => !(isB64Char c)) = true)) := by
  refine ⟨by decide, fun s => ?_⟩
  by_cases h1 : (cleaned s).length % 4 = 1
  · simp [decode, atob, h1]
  · by_cases h2 : (cleaned s).any (fun c => !(isB64Char c)) = true
    · simp [decode, atob, h1, h2]
    · simp [decode, atob, h1, h2]

/-- Witness for C6 (amended): a string holding only a dollar sign fails. -/
theorem c6_amended_witness :
    decode ['$'] = Except.error DecodeError.invalidCharacter :=
  (c6_amended.2 ['$']).mpr (by decide)

/-- C7: for byte sequences whose length is a multiple of `2 × channels`,
a successful conversion has exactly `length / (2 × channels)` frames with
no remainder, one sample array per channel, each of that exact length. -/
theorem c7_frame_count (data : List Nat) (sr nc : Nat) (buf : AudioBuffer)
    (hdvd : data.length % (2 * nc) = 0)
    (h : decodeAudioData data sr nc = Except.ok buf) :
    buf.frameCount = data.length / (2 * nc)
    ∧ buf.frameCount * (2 * nc) = data.length
    ∧ buf.channels.length = nc
    ∧ ∀ ch ∈ buf.channels, ch.length = buf.frameCount := by
  have hfc : buf.frameCount = data.length / (2 * nc) := by
    rw [decodeAudioData_ok data sr nc buf h, bytesToInt16LE_length,
      Nat.div_div_eq_div_mul]
  refine ⟨hfc, ?_, ?_, ?_⟩
  · rw [hfc]
    exact Nat.div_mul_cancel (Nat.dvd_of_mod_eq_zero hdvd)
  · rw [decodeAudioData_ok data sr nc buf h]
    simp
  · rw [decodeAudioData_ok data sr nc buf h]
    intro ch hch
    simp only [List.mem_map] at hch
    obtain ⟨channel, -, rfl⟩ := hch
    simp [bytesToInt16LE_length]

/-- Witness for C7 at the §8 scenario payload: 4 bytes, mono, 2 frames. -/
theorem c7_frame_count_witness :
    sampleBuf.frameCount = ([0, 128, 255, 127] : List Nat).length / (2 * 1)
    ∧ sampleBuf.frameCount * (2 * 1) = ([0, 128, 255, 127] : List Nat).length :=
  ⟨(c7_frame_count [0, 128, 255, 127] 24000 1 sampleBuf (by decide) rfl).1,
   (c7_frame_count [0, 128, 255, 127] 24000 1 sampleBuf (by decide) rfl).2.1⟩

lemma loadStepI_frame (s : Sim) :
    (loadStepI s).1.sourceNode = s.sourceNode ∧ (loadStepI s).1.attached = s.attached
    ∧ (loadStepI s).1.nextId = s.nextId ∧ (loadStepI s).1.fired = s.fired
    ∧ (loadStepI s).1.started = s.started := by
  unfold loadStepI
  split
  · exact ⟨rfl, rfl, rfl, rfl, rfl⟩
  · split
    · exact ⟨rfl, rfl, rfl, rfl, rfl⟩
    · split <;> exact ⟨rfl, rfl, rfl, rfl, rfl⟩

lemma playStep_unloaded_eq (s : Sim) (h : s.audioBuffer = none) :
    playStep s = { s with errs := s.errs ++ [PlayerErr.notLoaded] } := by
  unfold playStep
  rw [h]

lemma playStep_fresh_eq (s : Sim) (buf : AudioBuffer)
    (hb : s.audioBuffer = some buf) (hs : s.sourceNode = none) :
    playStep s = { s with sourceNode := some s.nextId
                          attached := s.nextId :: s.attached
                          started := s.started ++ [(s.nextId, 0)]
                          nextId := s.nextId + 1 } := by
  unfold playStep
  rw [hb, hs]
  dsimp only
  rw [hb]

lemma playStep_replay_eq (s : Sim) (buf : AudioBuffer) (a : Nat)
    (hb : s.audioBuffer = some buf) (hs : s.sourceNode = some a) :
    playStep s = { s with sourceNode := some s.nextId
                          attached := s.nextId :: s.attached.filter (fun x => x != a)
                          started := s.started ++ [(s.nextId, 0)]
                          nextId := s.nextId + 1 } := by
  unfold playStep stopStep
  rw [hb, hs]

lemma stopStep_none_eq (s : Sim) (h : s.sourceNode = none) : stopStep s = s := by
  unfold stopStep
  rw [h]

lemma stopStep_some_eq (s : Sim) (a : Nat) (h : s.sourceNode = some a) :
    stopStep s = { s with attached := s.attached.filter (fun x => x != a)
                          sourceNode := none } := by
  unfold stopStep
  rw [h]

lemma endedStep_detached_eq (s : Sim) (n : Nat) (h : n ∉ s.attached) :
    endedStep s n = s := by
  unfold endedStep
  rw [if_neg h]

lemma endedStep_nocb_eq (s : Sim) (n : Nat) (hatt : n ∈ s.attached)
    (hcb : s.onEndedCallback = none) :
    endedStep s n = { s with sourceNode := none } := by
  unfold endedStep
  rw [if_pos hatt]
  dsimp only
  rw [hcb]

lemma endedStep_fires_eq (s : Sim) (n cb : Nat) (hatt : n ∈ s.attached)
    (hcb : s.onEndedCallback = some cb) :
    endedStep s n = { s with sourceNode := none
                             fired := s.fired ++
                               [⟨n, cb, stateOf { s with sourceNode := none }⟩] } := by
  unfold endedStep
  rw [if_pos hatt]
  dsimp only
  rw [hcb]

lemma stateOf_unloaded (s : Sim) (h : s.audioBuffer = none) :
    stateOf s = .unloaded := by
  unfold stateOf
  rw [h]

lemma stateOf_loaded (s : Sim) (buf : AudioBuffer)
    (hb : s.audioBuffer = some buf) (hs : s.sourceNode = none) :
    stateOf s = .loaded := by
  unfold stateOf
  rw [hb, hs]

lemma stateOf_playing (s : Sim) (buf : AudioBuffer) (a : Nat)
    (hb : s.audioBuffer = some buf) (hs : s.sourceNode = some a) :
    stateOf s = .playing := by
  unfold stateOf
  rw [hb, hs]

/-- Once a node's `onended` slot has been nulled (and the node can no
longer be the one `play()` creates, because its id is already taken), no
command — caller operation or `ended` delivery — can ever make it fire:
`play()` only installs the closure on fresh nodes, and `endedStep` runs
nothing for a detached node. -/
lemma step_detached (s : Sim) (a : Nat) (c : Cmd)
    (h1 : a ∉ s.attached) (h2 : a < s.nextId) :
    a ∉ (step s c).attached ∧ a < (step s c).nextId
    ∧ firedFor (step s c) a = firedFor s a := by
  cases c with
  | load =>
    obtain ⟨-, ha, hn, hf, -⟩ := loadStepI_frame s
    refine ⟨ha ▸ h1, hn ▸ h2, ?_⟩
    show firedFor (loadStep s) a = firedFor s a
    unfold firedFor loadStep
    rw [hf]
  | play =>
    show a ∉ (playStep s).attached ∧ a < (playStep s).nextId
      ∧ firedFor (playStep s) a = firedFor s a
    cases hb : s.audioBuffer with
    | none =>
      rw [playStep_unloaded_eq s hb]
      exact ⟨h1, h2, rfl⟩
    | some buf =>
      cases hs : s.sourceNode with
      | none =>
        rw [playStep_fresh_eq s buf hb hs]
        refine ⟨?_, Nat.lt_succ_of_lt h2, rfl⟩
        intro hmem
        rcases List.mem_cons.1 hmem with h | h
        · omega
        · exact h1 h
      | some nid =>
        rw [playStep_replay_eq s buf nid hb hs]
        refine ⟨?_, Nat.lt_succ_of_lt h2, rfl⟩
        intro hmem
        rcases List.mem_cons.1 hmem with h | h
        · omega
        · exact h1 (List.mem_of_mem_filter h)
  | stop =>
    show a ∉ (stopStep s).attached ∧ a < (stopStep s).nextId
      ∧ firedFor (stopStep s) a = firedFor s a
    cases hs : s.sourceNode with
    | none =>
      rw [stopStep_none_eq s hs]
      exact ⟨h1, h2, rfl⟩
    | some nid =>
      rw [stopStep_some_eq s nid hs]
      exact ⟨fun hmem => h1 (List.mem_of_mem_filter hmem), h2, rfl⟩
  | onEnded cb => exact ⟨h1, h2, rfl⟩
  | ended n =>
    show a ∉ (endedStep s n).attached ∧ a < (endedStep s n).nextId
      ∧ firedFor (endedStep s n) a = firedFor s a
    by_cases hn : n ∈ s.attached
    · have hna : n ≠ a := fun h => h1 (h ▸ hn)
      cases hcb : s.onEndedCallback with
      | none =>
        rw [endedStep_nocb_eq s n hn hcb]
        exact ⟨h1, h2, rfl⟩
      | some cb =>
        rw [endedStep_fires_eq s n cb hn hcb]
        refine ⟨h1, h2, ?_⟩
        unfold firedFor
        simp [List.filter_append, hna]
    · rw [endedStep_detached_eq s n hn]
      exact ⟨h1, h2, rfl⟩

lemma run_detached (a : Nat) : ∀ (cs : List Cmd) (s : Sim),
    a ∉ s.attached → a < s.nextId →
    a ∉ (run s cs).attached ∧ a < (run s cs).nextId
    ∧ firedFor (run s cs) a = firedFor s a
  | [], _, h1, h2 => ⟨h1, h2, rfl⟩
  | c :: cs, s, h1, h2 => by
    obtain ⟨g1, g2, g3⟩ := step_detached s a c h1 h2
    obtain ⟨r1, r2, r3⟩ := run_detached a cs (step s c) g1 g2
    refine ⟨r1, r2, ?_⟩
    calc firedFor (run s (c :: cs)) a = firedFor (run (step s c) cs) a := rfl
    _ = firedFor (step s c) a := r3
    _ = firedFor s a := g3

/-- The cached buffer, once set, is never modified by any command:
`load()` returns early, and no other operation assigns `audioBuffer`. -/
lemma step_buffer (s : Sim) (c : Cmd) (b : AudioBuffer)
    (h : s.audioBuffer = some b) : (step s c).audioBuffer = some b := by
  cases c with
  | load =>
    show (loadStep s).audioBuffer = some b
    unfold loadStep loadStepI
    rw [if_pos (by rw [h]; rfl)]
    exact h
  | play =>
    show (playStep s).audioBuffer = some b
    unfold playStep stopStep
    rw [h]
    cases hs : s.sourceNode <;> simp [h]
  | stop =>
    show (stopStep s).audioBuffer = some b
    unfold stopStep
    cases hs : s.sourceNode <;> simp [h]
  | onEnded cb => exact h
  | ended n =>
    show (endedStep s n).audioBuffer = some b
    unfold endedStep
    by_cases hn : n ∈ s.attached
    · rw [if_pos hn]
      cases hcb : s.onEndedCallback <;> simp [h]
    · rw [if_neg hn]
      exact h

lemma run_buffer (b : AudioBuffer) : ∀ (cs : List Cmd) (s : Sim),
    s.audioBuffer = some b → (run s cs).audioBuffer = some b
  | [], _, h => h
  | c :: cs, s, h => run_buffer b cs (step s c) (step_buffer s c b h)

/-- C3: `play()` on an unloaded controller only reports the
not-loaded error (the `console.error` of line 53) and returns: every
other field is untouched and the controller remains `Unloaded`. -/
theorem c3_play_unloaded (s : Sim) (h : s.audioBuffer = none) :
    playStep s = { s with errs := s.errs ++ [PlayerErr.notLoaded] }
    ∧ stateOf (playStep s) = PState.unloaded := by
  refine ⟨playStep_unloaded_eq s h, ?_⟩
  rw [playStep_unloaded_eq s h]
  exact stateOf_unloaded _ h

/-- Witness for C3: a freshly constructed player. -/
theorem c3_play_unloaded_witness :
    playStep (Sim.init b64c) =
      { Sim.init b64c with errs := (Sim.init b64c).errs ++ [PlayerErr.notLoaded] }
    ∧ stateOf (playStep (Sim.init b64c)) = PState.unloaded :=
  c3_play_unloaded (Sim.init b64c) rfl

/-- C4: `play()` while `Playing` stops the old session `a` first — in
particular its `onended` slot is nulled, so its completion callback can
never fire under any continuation of the run — and starts a fresh
session (a new node id) from frame offset 0, leaving the controller
`Playing`.  No callback fires during the operation itself. -/
theorem c4_replay_supersedes (s : Sim) (buf : AudioBuffer) (a : Nat)
    (hb : s.audioBuffer = some buf) (hs : s.sourceNode = some a)
    (hn : a < s.nextId) :
    stateOf (playStep s) = PState.playing
    ∧ (playStep s).sourceNode = some s.nextId
    ∧ s.nextId ≠ a
    ∧ (playStep s).started = s.started ++ [(s.nextId, 0)]
    ∧ (playStep s).fired = s.fired
    ∧ ∀ cs : List Cmd, firedFor (run (playStep s) cs) a = firedFor s a := by
  have hp := playStep_replay_eq s buf a hb hs
  have hdet : a ∉ (playStep s).attached := by
    rw [hp]
    intro hmem
    rcases List.mem_cons.1 hmem with h | h
    · omega
    · have := List.of_mem_filter h
      simp at this
  have hlt : a < (playStep s).nextId := by
    rw [hp]
    exact Nat.lt_succ_of_lt hn
  refine ⟨?_, by rw [hp], by omega, by rw [hp], by rw [hp], fun cs => ?_⟩
  · rw [hp]
    exact stateOf_playing _ buf s.nextId hb rfl
  · have hrun := (run_detached a cs (playStep s) hdet hlt).2.2
    rw [hrun, hp]
    rfl

/-- Witness for C4: replaying on the playing player; even delivering the
old node's `ended` event afterwards fires nothing for session 0. -/
theorem c4_replay_supersedes_witness :
    stateOf (playStep simPlaying) = PState.playing
    ∧ firedFor (run (playStep simPlaying) [Cmd.ended 0]) 0 = firedFor simPlaying 0 :=
  ⟨(c4_replay_supersedes simPlaying sampleBuf 0 rfl rfl (by decide)).1,
   (c4_replay_supersedes simPlaying sampleBuf 0 rfl rfl (by decide)).2.2.2.2.2
     [Cmd.ended 0]⟩

/-- C5: a manual `stop()` of active session `a` detaches the completion
path — the callback for that session can never fire under any
continuation of the run, and none fires during `stop()` itself — and
moves the controller to `Loaded`; on a controller that is not `Playing`,
`stop()` is the identity (no state change, no callback). -/
theorem c5_manual_stop_silent (s : Sim) (buf : AudioBuffer) (a : Nat)
    (hb : s.audioBuffer = some buf) (hs : s.sourceNode = some a)
    (hn : a < s.nextId) :
    stateOf (stopStep s) = PState.loaded
    ∧ (stopStep s).fired = s.fired
    ∧ (∀ cs : List Cmd, firedFor (run (stopStep s) cs) a = firedFor s a)
    ∧ ∀ t : Sim, t.sourceNode = none → stopStep t = t := by
  have hp := stopStep_some_eq s a hs
  have hdet : a ∉ (stopStep s).attached := by
    rw [hp]
    intro hmem
    have := List.of_mem_filter hmem
    simp at this
  have hlt : a < (stopStep s).nextId := by
    rw [hp]
    exact hn
  refine ⟨?_, by rw [hp], fun cs => ?_, fun t ht => stopStep_none_eq t ht⟩
  · rw [hp]
    exact stateOf_loaded _ buf hb rfl
  · have hrun := (run_detached a cs (stopStep s) hdet hlt).2.2
    rw [hrun, hp]
    rfl

/-- Witness for C5: stopping the playing player; a later `ended` delivery
for the stopped node 0 fires nothing. -/
theorem c5_manual_stop_silent_witness :
    stateOf (stopStep simPlaying) = PState.loaded
    ∧ firedFor (run (stopStep simPlaying) [Cmd.ended 0]) 0 = firedFor simPlaying 0 :=
  ⟨(c5_manual_stop_silent simPlaying sampleBuf 0 rfl rfl (by decide)).1,
   (c5_manual_stop_silent simPlaying sampleBuf 0 rfl rfl (by decide)).2.2.1
     [Cmd.ended 0]⟩

/-- C8: `load()` on a controller that already holds a buffer returns on
line 45 without running the decode pipeline and without any state
change, and the cached buffer survives every later command unchanged —
it is decoded at most once per controller. -/
theorem c8_load_idempotent (s : Sim) (b : AudioBuffer)
    (h : s.audioBuffer = some b) :
    loadStepI s = (s, false)
    ∧ ∀ cs : List Cmd, (run s cs).audioBuffer = some b := by
  constructor
  · unfold loadStepI
    rw [if_pos (show s.audioBuffer.isSome = true by rw [h]; rfl)]
  · exact fun cs => run_buffer b cs s h

/-- Witness for C8: the loaded player; a second `load()` command leaves
the cached buffer in place. -/
theorem c8_load_idempotent_witness :
    loadStepI simLoaded = (simLoaded, false)
    ∧ (run simLoaded [Cmd.load]).audioBuffer = some sampleBuf :=
  ⟨(c8_load_idempotent simLoaded sampleBuf rfl).1,
   (c8_load_idempotent simLoaded sampleBuf rfl).2 [Cmd.load]⟩

/-- C9: natural completion of the attached active session `n` appends
exactly one handler invocation, for the callback registered at that
moment (`cb2`, installed by `onEnded` after `play()` — not whatever was
registered earlier), and the invoked handler observes the controller
already back in `Loaded`: the closure of lines 63–68 clears
`sourceNode` before calling the callback. -/
theorem c9_natural_completion (s : Sim) (buf : AudioBuffer) (n cb2 : Nat)
    (hb : s.audioBuffer = some buf) (hs : s.sourceNode = some n)
    (hatt : n ∈ s.attached) :
    endedStep (onEndedStep s cb2) n
      = { s with onEndedCallback := some cb2
                 sourceNode := none
                 fired := s.fired ++ [⟨n, cb2, PState.loaded⟩] }
    ∧ stateOf (endedStep (onEndedStep s cb2) n) = PState.loaded := by
  have hfe := endedStep_fires_eq (onEndedStep s cb2) n cb2 hatt rfl
  have hst : stateOf { onEndedStep s cb2 with sourceNode := none } = PState.loaded :=
    stateOf_loaded _ buf hb rfl
  have hmain : endedStep (onEndedStep s cb2) n
      = { s with onEndedCallback := some cb2
                 sourceNode := none
                 fired := s.fired ++ [⟨n, cb2, PState.loaded⟩] } := by
    rw [hfe, hst]
    rfl
  refine ⟨hmain, ?_⟩
  rw [hmain]
  exact stateOf_loaded _ buf hb rfl

/-- Witness for C9: natural completion of session 0 after replacing the
handler with callback 7. -/
theorem c9_natural_completion_witness :
    endedStep (onEndedStep simPlaying 7) 0
      = { simPlaying with onEndedCallback := some 7
                          sourceNode := none
                          fired := simPlaying.fired ++ [⟨0, 7, PState.loaded⟩] }
    ∧ stateOf (endedStep (onEndedStep simPlaying 7) 0) = PState.loaded :=
  c9_natural_completion simPlaying sampleBuf 0 7 rfl rfl (by decide)

/-- C10: on every reachable state of any player, a cached decoded buffer
has exactly 1 channel and sample rate 24000: those are the hard-coded
constants of lines 41 and 47–48, independent of the encoded payload. -/
theorem c10_fixed_format (b64 : List Char) (cs : List Cmd) (buf : AudioBuffer)
    (h : (run (Sim.init b64) cs).audioBuffer = some buf) :
    buf.numChannels = 1 ∧ buf.sampleRate = 24000 ∧ buf.channels.length = 1 := by
  suffices hinv : ∀ (cs : List Cmd) (s : Sim),
      (∀ b, s.audioBuffer = some b →
        b.numChannels = 1 ∧ b.sampleRate = 24000 ∧ b.channels.length = 1) →
      ∀ b, (run s cs).audioBuffer = some b →
        b.numChannels = 1 ∧ b.sampleRate = 24000 ∧ b.channels.length = 1 by
    exact hinv cs (Sim.init b64) (fun b hb => by simp [Sim.init] at hb) buf h
  intro cs
  induction cs with
  | nil => exact fun s hs => hs
  | cons c cs ih =>
    intro s hs
    refine ih (step s c) ?_
    intro b hb
    cases c with
    | load =>
      by_cases hsome : s.audioBuffer.isSome
      · obtain ⟨b0, hb0⟩ := Option.isSome_iff_exists.1 hsome
        rw [show step s Cmd.load = s from by
          show loadStep s = s
          unfold loadStep loadStepI
          rw [if_pos (by rw [hb0]; rfl)]] at hb
        exact hs b hb
      · revert hb
        show (loadStep s).audioBuffer = some b → _
        unfold loadStep loadStepI
        rw [if_neg hsome]
        intro hb
        cases hdec : decode s.base64Audio with
        | error e =>
          rw [hdec] at hb
          dsimp only at hb
          exact hs b hb
        | ok bytes =>
          rw [hdec] at hb
          dsimp only at hb
          cases hbuf : decodeAudioData bytes 24000 1 with
          | error e =>
            rw [hbuf] at hb
            dsimp only at hb
            exact hs b hb
          | ok b1 =>
            rw [hbuf] at hb
            dsimp only at hb
            have hb1 : b1 = b := by simpa using hb
            rw [← hb1, decodeAudioData_ok bytes 24000 1 b1 hbuf]
            exact ⟨rfl, rfl, by simp⟩
    | play =>
      cases hab : s.audioBuffer with
      | none =>
        rw [show step s Cmd.play = playStep s from rfl,
          playStep_unloaded_eq s hab] at hb
        exact hs b hb
      | some b0 =>
        cases hsn : s.sourceNode with
        | none =>
          rw [show step s Cmd.play = playStep s from rfl,
            playStep_fresh_eq s b0 hab hsn] at hb
          exact hs b hb
        | some a =>
          rw [show step s Cmd.play = playStep s from rfl,
            playStep_replay_eq s b0 a hab hsn] at hb
          exact hs b hb
    | stop =>
      cases hsn : s.sourceNode with
      | none =>
        rw [show step s Cmd.stop = stopStep s from rfl, stopStep_none_eq s hsn] at hb
        exact hs b hb
      | some a =>
        rw [show step s Cmd.stop = stopStep s from rfl, stopStep_some_eq s a hsn] at hb
        exact hs b hb
    | onEnded cb => exact hs b hb
    | ended n =>
      by_cases hatt : n ∈ s.attached
      · cases hcb : s.onEndedCallback with
        | none =>
          rw [show step s (Cmd.ended n) = endedStep s n from rfl,
            endedStep_nocb_eq s n hatt hcb] at hb
          exact hs b hb
        | some cb =>
          rw [show step s (Cmd.ended n) = endedStep s n from rfl,
            endedStep_fires_eq s n cb hatt hcb] at hb
          exact hs b hb
      · rw [show step s (Cmd.ended n) = endedStep s n from rfl,
          endedStep_detached_eq s n hatt] at hb
        exact hs b hb

/-- Witness for C10: the loaded player's buffer. -/
theorem c10_fixed_format_witness :
    sampleBuf.numChannels = 1 ∧ sampleBuf.sampleRate = 24000
    ∧ sampleBuf.channels.length = 1 :=
  c10_fixed_format b64c [Cmd.load] sampleBuf rfl
